import Mathlib

/-!
Verification development for the steam-dashboard repository.

The TypeScript sources are shallowly embedded: pure computations become Lean
functions, network calls (`fetch`, `parseUserReviews`, the upstream Steam
APIs) become explicit environment parameters, JavaScript objects used as
string-keyed maps become association lists with JS property semantics
(assignment to an existing key overwrites in place, a new key is appended),
and thrown JS values become `Except` errors carrying `Option String`
(`some msg` for an `Error` with message `msg`, `none` for a non-`Error`
thrown value).  JS `number` values that the claims touch are modelled as
`Nat`/`Int` for integral counters and as `ℚ` for `parseFloat` results.
Concurrent reviewer tasks (`Promise.allSettled` over one task per reviewer)
are modelled by running the tasks in seed order: each task writes only its
own key of the result object and performs one atomic
increment-and-report of the shared progress counter, so the final result
object and the multiset of progress invocations are interleaving-independent.
-/

/-! ## JavaScript object / string helpers -/

/-- JS property read `m[k]`: first binding wins (keys are unique in practice). -/
def jsGet {α : Type} (m : List (String × α)) (k : String) : Option α :=
  match m with
  | [] => none
  | (k', v) :: rest => if k' = k then some v else jsGet rest k

/-- JS property write `m[k] = v`: overwrite in place, else append (JS
property-order semantics). -/
def jsSet {α : Type} (m : List (String × α)) (k : String) (v : α) :
    List (String × α) :=
  match m with
  | [] => [(k, v)]
  | (k', v') :: rest =>
      if k' = k then (k, v) :: rest else (k', v') :: jsSet rest k v

/-- The character class `\d` of a JS regular expression (no Unicode flag). -/
def jsDigit (c : Char) : Bool := '0' ≤ c && c ≤ '9'

/-- The character class `\s` of a JS regular expression (WhiteSpace ∪
LineTerminator of the ECMAScript spec). -/
def jsSpace (c : Char) : Bool :=
  c = ' ' || c = '\t' || c = '\n' || c = '\r' ||
  c = Char.ofNat 0x0b || c = Char.ofNat 0x0c ||
  c = Char.ofNat 0xa0 || c = Char.ofNat 0x1680 ||
  (Char.ofNat 0x2000 ≤ c && c ≤ Char.ofNat 0x200a) ||
  c = Char.ofNat 0x2028 || c = Char.ofNat 0x2029 ||
  c = Char.ofNat 0x202f || c = Char.ofNat 0x205f ||
  c = Char.ofNat 0x3000 || c = Char.ofNat 0xfeff

/-- JS `String.prototype.trim()`: strip `\s` characters from both ends. -/
def jsTrim (s : String) : String :=
  String.mk (((s.data.dropWhile jsSpace).reverse.dropWhile jsSpace).reverse)

/-- The character-level worker of JS `String.prototype.split` with a
one-character separator. -/
def splitOnChar (sep : Char) : List Char → List (List Char)
  | [] => [[]]
  | c :: rest =>
      let r := splitOnChar sep rest
      if c = sep then [] :: r
      else
        match r with
        | [] => [[c]]
        | h :: t => (c :: h) :: t

/-- JS `s.split(sep)` for a one-character separator; `"".split(",") = [""]`. -/
def jsSplit (s : String) (sep : Char) : List String :=
  (splitOnChar sep s.data).map String.mk

/-- JS `String.prototype.startsWith`: character-by-character prefix test. -/
def jsStartsWith (s pre : String) : Bool := pre.data.isPrefixOf s.data

/-- The message recorded by `catch (err) { err instanceof Error ? err.message
: "Unknown parsing error" }` (src/components/ui/navbar.tsx).  A thrown JS
value is `some msg` for an `Error`, `none` otherwise. -/
def thrownMessage (thrown : Option String) : String :=
  thrown.getD "Unknown parsing error"

/-! ## Data model (src/types/steam.ts) -/

/-- `SteamReviewAuthor` of src/types/steam.ts; the trailing five fields are
optional in TS. -/
structure SteamReviewAuthor where
  steamid : String
  num_games_owned : Nat
  num_reviews : Nat
  playtime_forever : Nat
  playtime_last_two_weeks : Nat
  playtime_at_review : Nat
  personaname : Option String
  profileurl : Option String
  avatar : Option String
  avatarmedium : Option String
  avatarfull : Option String
deriving Repr, DecidableEq

/-- `SteamReview` of src/types/steam.ts. -/
structure SteamReview where
  recommendationid : String
  author : SteamReviewAuthor
  language : String
  review : String
  timestamp_created : Int
  timestamp_updated : Int
  voted_up : Bool
  votes_up : Nat
  votes_funny : Nat
  weighted_vote_score : ℚ
  comment_count : Nat
  steam_purchase : Bool
  received_for_free : Bool
  written_during_early_access : Bool
deriving Repr, DecidableEq

/-- `QuerySummary` of src/types/steam.ts. -/
structure QuerySummary where
  num_reviews : Nat
  review_score : Nat
  review_score_desc : String
  total_positive : Nat
  total_negative : Nat
  total_reviews : Nat
deriving Repr, DecidableEq

/-- `SteamReviewResponse` of src/types/steam.ts. -/
structure SteamReviewResponse where
  success : Nat
  query_summary : QuerySummary
  reviews : List SteamReview
  cursor : String
deriving Repr, DecidableEq

/-- `PlayerSummary` of src/types/steam.ts (extended optional fields omitted
by the claims are kept, required ones required). -/
structure PlayerSummary where
  steamid : String
  communityvisibilitystate : Nat
  profilestate : Nat
  personaname : String
  profileurl : String
  avatar : String
  avatarmedium : String
  avatarfull : String
  avatarhash : String
  personastate : Nat
  realname : Option String
deriving Repr, DecidableEq

/-- The recommendation polarity `"positive" | "negative"` of the review
  parser. -/
inductive RecType where
  | positive
  | negative
deriving Repr, DecidableEq

/-- `ParsedUserReview` of src/lib/steam/reviewParser.ts; `parseFloat`
results are modelled as rationals. -/
structure ParsedUserReview where
  gameId : String
  gameTitle : Option String
  gameCapsuleImage : String
  recommendationType : RecType
  hoursTotal : Option ℚ
  hoursAtReview : Option ℚ
  reviewText : String
  reviewDate : String
  reviewUrl : String
deriving Repr, DecidableEq

/-- The per-reviewer `profile` snapshot of `ReviewsAnalysisData`
(src/types/steam.ts). -/
structure ReviewerProfile where
  steamId : String
  personaname : Option String
  profileurl : Option String
  avatar : Option String
  num_games_owned : Option Nat
  num_reviews : Option Nat
deriving Repr, DecidableEq

/-- One entry of a reviewer's per-game `reviews` map as written by the first
variant of `aggregateReviewerData` (navbar.tsx lines 230-241). -/
structure ReviewEntry where
  gameId : String
  gameName : Option String
  gameCapsuleImage : Option String
  recommendation : RecType
  reviewText : String
  reviewDate : Option String
  reviewUrl : Option String
  playtime : Option ℚ
  playtimeAtReview : Option ℚ
  reviewTimestamp : Int
deriving Repr, DecidableEq

/-- One entry of a reviewer's per-game `reviews` map as written by the second
variant of `aggregateReviewerData` (navbar.tsx lines 352-362): no `gameName`,
and `reviewTimestamp` may be left `undefined`. -/
structure ReviewEntryV2 where
  gameId : String
  gameCapsuleImage : Option String
  recommendation : RecType
  reviewText : String
  reviewDate : Option String
  reviewTimestamp : Option Int
  reviewUrl : Option String
  playtime : Option ℚ
  playtimeAtReview : Option ℚ
deriving Repr, DecidableEq

/-- One reviewer's aggregate in `ReviewsAnalysisData` (first variant). -/
structure ReviewerAggregate where
  profile : ReviewerProfile
  reviews : List (String × ReviewEntry)
  totalPages : Nat
  error : Option String
deriving Repr, DecidableEq

/-- One reviewer's aggregate in `ReviewsAnalysisData` (second variant). -/
structure ReviewerAggregateV2 where
  profile : ReviewerProfile
  reviews : List (String × ReviewEntryV2)
  totalPages : Nat
  error : Option String
deriving Repr, DecidableEq

/-! ## Reviewer aggregation engine (navbar.tsx, `aggregateReviewerData`) -/

/-- The outcome of `parseUserReviews(profileUrl, maxPages)` for a given
profile URL: either a thrown JS value or `{ reviews, totalPages }`.  The
network and HTML parsing behind it are the environment of the engine. -/
abbrev FeedEnv : Type :=
  String → Nat → Except (Option String) (List ParsedUserReview × Nat)

/-- The outcome of `new Date(s).getTime()` for a date string: `none` models
`NaN`.  `parseReviewDate` is parametrised by it. -/
abbrev DateEnv : Type := String → Option Int

/-- `parseReviewDate` (navbar.tsx lines 133-143): empty string and
unparseable dates give `undefined`. -/
def parseReviewDate (dateEnv : DateEnv) (dateString : String) : Option Int :=
  if dateString = "" then none else dateEnv dateString

/-- The profile snapshot initialised for an author (navbar.tsx lines
189-200). -/
def profileSnapshot (author : SteamReviewAuthor) : ReviewerProfile :=
  { steamId := author.steamid
    personaname := author.personaname
    profileurl := author.profileurl
    avatar := author.avatar
    num_games_owned := some author.num_games_owned
    num_reviews := some author.num_reviews }

/-- The freshly initialised aggregate of one reviewer: empty review map,
`totalPages: 0`, no error. -/
def initAggregate (author : SteamReviewAuthor) : ReviewerAggregate :=
  { profile := profileSnapshot author
    reviews := []
    totalPages := 0
    error := none }

/-- The JS test `!profileUrl || profileUrl === "#"` on the optional
`author.profileurl` (navbar.tsx line 203): `undefined` and `""` are falsy. -/
def unusableProfileUrl : Option String → Bool
  | none => true
  | some u => u = "" || u = "#"

/-- The review-map entry stored by the first variant (navbar.tsx lines
230-241). -/
def mkReviewEntry (dateEnv : DateEnv) (parsedReview : ParsedUserReview) :
    ReviewEntry :=
  { gameId := parsedReview.gameId
    gameName := parsedReview.gameTitle
    gameCapsuleImage := some parsedReview.gameCapsuleImage
    recommendation := parsedReview.recommendationType
    reviewText := parsedReview.reviewText
    reviewDate := some parsedReview.reviewDate
    reviewUrl := some parsedReview.reviewUrl
    playtime := parsedReview.hoursTotal
    playtimeAtReview := parsedReview.hoursAtReview
    reviewTimestamp := (parseReviewDate dateEnv parsedReview.reviewDate).getD 0 }

/-- The `for (const parsedReview of userReviews)` loop of the first variant
(navbar.tsx lines 221-243): skip the analysed game when `targetAppId` is
truthy, then store positive entries with a non-empty game id. -/
def insertParsedReviews (dateEnv : DateEnv) (targetAppId : Option String) :
    List ParsedUserReview → List (String × ReviewEntry) →
    List (String × ReviewEntry)
  | [], m => m
  | parsedReview :: rest, m =>
      if (match targetAppId with
          | some t => decide (t ≠ "") && decide (parsedReview.gameId = t)
          | none => false) then
        insertParsedReviews dateEnv targetAppId rest m
      else if parsedReview.gameId ≠ "" &&
          parsedReview.recommendationType = RecType.positive then
        insertParsedReviews dateEnv targetAppId rest
          (jsSet m parsedReview.gameId (mkReviewEntry dateEnv parsedReview))
      else
        insertParsedReviews dateEnv targetAppId rest m

/-- One reviewer's task of the first variant (navbar.tsx lines 184-254):
initialise the aggregate, short-circuit on an unusable profile URL, otherwise
fetch-and-parse the feed, recording a thrown error's message on failure. -/
def processAuthor (env : FeedEnv) (dateEnv : DateEnv) (maxPagesPerUser : Nat)
    (targetAppId : Option String) (author : SteamReviewAuthor) :
    ReviewerAggregate :=
  if unusableProfileUrl author.profileurl then
    { initAggregate author with error := some "Profile URL not available" }
  else
    match env (author.profileurl.getD "") maxPagesPerUser with
    | Except.error thrown =>
        { initAggregate author with error := some (thrownMessage thrown) }
    | Except.ok (userReviews, totalPages) =>
        { initAggregate author with
            totalPages := totalPages
            reviews := insertParsedReviews dateEnv targetAppId userReviews [] }

/-- First-seen deduplication of authors by `steamid` via the
`uniqueAuthors` map (navbar.tsx lines 170-180); `seen` accumulates the ids
already present. -/
def firstSeenAuthors : List SteamReview → List String → List SteamReviewAuthor
  | [], _ => []
  | r :: rest, seen =>
      if r.author.steamid ∈ seen then firstSeenAuthors rest seen
      else r.author :: firstSeenAuthors rest (r.author.steamid :: seen)

/-- `authorList` of `aggregateReviewerData`: positive reviews only, first
seen author stub per steamid. -/
def uniqueAuthorsList (initialReviews : List SteamReview) :
    List SteamReviewAuthor :=
  firstSeenAuthors (initialReviews.filter (fun r => r.voted_up)) []

/-- The observable outcome of one aggregation run: the final `reviewers`
object and the ordered list of `onProgress(processed, total)` invocations. -/
structure AggregateRun where
  reviewers : List (String × ReviewerAggregate)
  progress : List (Nat × Nat)
deriving Repr, DecidableEq

/-- The per-author loop of `aggregateReviewerData`: each task stores its own
aggregate under its steamid and performs one atomic increment-and-report of
the shared `processedCount`. -/
def aggregateLoop (env : FeedEnv) (dateEnv : DateEnv) (maxPagesPerUser : Nat)
    (targetAppId : Option String) (total : Nat) :
    List SteamReviewAuthor → Nat → List (String × ReviewerAggregate) →
    List (Nat × Nat) → AggregateRun
  | [], _, m, p => { reviewers := m, progress := p }
  | author :: rest, processed, m, p =>
      aggregateLoop env dateEnv maxPagesPerUser targetAppId total rest
        (processed + 1)
        (jsSet m author.steamid
          (processAuthor env dateEnv maxPagesPerUser targetAppId author))
        (p ++ [(processed + 1, total)])

/-- `aggregateReviewerData` (first variant, navbar.tsx lines 155-261):
filter to positive reviews, dedupe authors first-seen, run one task per
unique author, return the aggregate object and the progress trace. -/
def aggregateReviewerData (env : FeedEnv) (dateEnv : DateEnv)
    (initialReviews : List SteamReview) (maxPagesPerUser : Nat := 20)
    (targetAppId : Option String := none) : AggregateRun :=
  let authorList := uniqueAuthorsList initialReviews
  aggregateLoop env dateEnv maxPagesPerUser targetAppId authorList.length
    authorList 0 [] []

/-! ## Reviewer aggregation engine, second variant (navbar.tsx lines 279-380)

The second observed variant of `aggregateReviewerData` differs in its stored
review-map entry (no `gameName`, possibly-undefined `reviewTimestamp`) and,
critically, in never reading its `targetAppId` parameter inside the
review-insertion loop (lines 346-364). -/

/-- The review-map entry stored by the second variant (navbar.tsx lines
352-362). -/
def mkReviewEntryV2 (dateEnv : DateEnv) (parsedReview : ParsedUserReview) :
    ReviewEntryV2 :=
  { gameId := parsedReview.gameId
    gameCapsuleImage := some parsedReview.gameCapsuleImage
    recommendation := parsedReview.recommendationType
    reviewText := parsedReview.reviewText
    reviewDate := some parsedReview.reviewDate
    reviewTimestamp := parseReviewDate dateEnv parsedReview.reviewDate
    reviewUrl := some parsedReview.reviewUrl
    playtime := parsedReview.hoursTotal
    playtimeAtReview := parsedReview.hoursAtReview }

/-- The `userReviews.forEach` loop of the second variant (navbar.tsx lines
346-364): note the absence of any `targetAppId` comparison. -/
def insertParsedReviewsV2 (dateEnv : DateEnv) :
    List ParsedUserReview → List (String × ReviewEntryV2) →
    List (String × ReviewEntryV2)
  | [], m => m
  | parsedReview :: rest, m =>
      if parsedReview.gameId ≠ "" &&
          parsedReview.recommendationType = RecType.positive then
        insertParsedReviewsV2 dateEnv rest
          (jsSet m parsedReview.gameId (mkReviewEntryV2 dateEnv parsedReview))
      else
        insertParsedReviewsV2 dateEnv rest m

/-- The freshly initialised aggregate of one reviewer in the second variant
(navbar.tsx lines 313-325): `error` is explicitly initialised `undefined`. -/
def initAggregateV2 (author : SteamReviewAuthor) : ReviewerAggregateV2 :=
  { profile := profileSnapshot author
    reviews := []
    totalPages := 0
    error := none }

/-- One reviewer's task of the second variant (navbar.tsx lines 308-375).
The `targetAppId` argument of the surrounding function is accepted but never
consulted here, mirroring the source. -/
def processAuthorV2 (env : FeedEnv) (dateEnv : DateEnv)
    (maxPagesPerUser : Nat) (author : SteamReviewAuthor) :
    ReviewerAggregateV2 :=
  if unusableProfileUrl author.profileurl then
    { initAggregateV2 author with error := some "Profile URL not available" }
  else
    match env (author.profileurl.getD "") maxPagesPerUser with
    | Except.error thrown =>
        { initAggregateV2 author with error := some (thrownMessage thrown) }
    | Except.ok (userReviews, totalPages) =>
        { initAggregateV2 author with
            totalPages := totalPages
            reviews := insertParsedReviewsV2 dateEnv userReviews [] }

/-- The observable outcome of one run of the second variant. -/
structure AggregateRunV2 where
  reviewers : List (String × ReviewerAggregateV2)
  progress : List (Nat × Nat)
deriving Repr, DecidableEq

/-- The per-author loop of the second variant. -/
def aggregateLoopV2 (env : FeedEnv) (dateEnv : DateEnv)
    (maxPagesPerUser : Nat) (total : Nat) :
    List SteamReviewAuthor → Nat → List (String × ReviewerAggregateV2) →
    List (Nat × Nat) → AggregateRunV2
  | [], _, m, p => { reviewers := m, progress := p }
  | author :: rest, processed, m, p =>
      aggregateLoopV2 env dateEnv maxPagesPerUser total rest
        (processed + 1)
        (jsSet m author.steamid
          (processAuthorV2 env dateEnv maxPagesPerUser author))
        (p ++ [(processed + 1, total)])

/-- `aggregateReviewerData`, second variant (navbar.tsx lines 279-380); the
`targetAppId` parameter is accepted, documented "to exclude from user's own
reviews if needed", and never used. -/
def aggregateReviewerDataV2 (env : FeedEnv) (dateEnv : DateEnv)
    (initialReviews : List SteamReview) (maxPagesPerUser : Nat := 10)
    (targetAppId : Option String := none) : AggregateRunV2 :=
  let _ := targetAppId
  let authorList := uniqueAuthorsList initialReviews
  aggregateLoopV2 env dateEnv maxPagesPerUser authorList.length
    authorList 0 [] []

/-! ## Steam client (src/lib/steam/client.ts) -/

/-- `chunkArray` (client.ts lines 56-62), specialised recursion: slice off
`size` elements at a time.  The JS loop diverges for `size = 0`; the fuel
argument (initialised to the array length, an upper bound on the number of
chunks for every `size ≥ 1`) makes the model total without affecting any
`size ≥ 1` behaviour. -/
def chunkArrayGo {α : Type} (size : Nat) : Nat → List α → List (List α)
  | _, [] => []
  | 0, _ :: _ => []
  | fuel + 1, a :: tl =>
      (a :: tl).take size :: chunkArrayGo size fuel ((a :: tl).drop size)

/-- `chunkArray(array, size)` (client.ts lines 56-62). -/
def chunkArray {α : Type} (array : List α) (size : Nat) : List (List α) :=
  chunkArrayGo size array.length array

/-- Outcome of one `makeRequest` to the players endpoint for one chunk: a
thrown transport/HTTP error message, or a parsed body whose
`response?.players` field is `none` when missing. -/
abbrev PlayersApiEnv : Type :=
  List String → Except String (Option (List PlayerSummary))

/-- The per-chunk loop of `getPlayerSummaries` (client.ts lines 106-122),
also logging the chunks actually sent upstream.  A missing
`data.response?.players` aborts the whole call with the source's error
message. -/
def getPlayerSummariesGo (env : PlayersApiEnv) :
    List (List String) → List PlayerSummary → List (List String) →
    Except String (List PlayerSummary) × List (List String)
  | [], allResults, log => (Except.ok allResults, log)
  | chunk :: rest, allResults, log =>
      match env chunk with
      | Except.error e => (Except.error e, log ++ [chunk])
      | Except.ok none =>
          (Except.error "Steam API returned incorrect player data",
            log ++ [chunk])
      | Except.ok (some players) =>
          getPlayerSummariesGo env rest (allResults ++ players)
            (log ++ [chunk])

/-- `getPlayerSummaries(steamIds)` (client.ts lines 100-125): empty input
short-circuits with no request; otherwise one request per 100-element chunk,
results concatenated.  The second component is the list of issued chunk
requests. -/
def getPlayerSummaries (env : PlayersApiEnv) (steamIds : List String) :
    Except String (List PlayerSummary) × List (List String) :=
  if steamIds.isEmpty then (Except.ok [], [])
  else getPlayerSummariesGo env (chunkArray steamIds 100) [] []

/-- Outcome of the `makeRequest` behind `getGameReviews`: a thrown message or
the parsed `ReviewResponse` body. -/
abbrev ReviewsApiEnv : Type := Except String SteamReviewResponse

/-- `getGameReviews` (client.ts lines 69-94) after the request: a body whose
`success` flag is not 1 is converted to a thrown error. -/
def getGameReviews (env : ReviewsApiEnv) : Except String SteamReviewResponse :=
  match env with
  | Except.error e => Except.error e
  | Except.ok data =>
      if data.success = 1 then Except.ok data
      else Except.error "Steam API returned an error or incomplete data"

/-- `[...new Set(xs)]`: first-seen deduplication of strings. -/
def dedupFirstSeen : List String → List String → List String
  | [], _ => []
  | x :: rest, seen =>
      if x ∈ seen then dedupFirstSeen rest seen
      else x :: dedupFirstSeen rest (x :: seen)

/-- The `playerMap` of `getReviewsWithPlayerData` (client.ts lines 144-147):
`Map.set` in iteration order, so a later summary with the same steamid
overwrites an earlier one. -/
def buildPlayerMap (playerSummaries : List PlayerSummary) :
    List (String × PlayerSummary) :=
  playerSummaries.foldl (fun m p => jsSet m p.steamid p) []

/-- The per-review enrichment of `getReviewsWithPlayerData` (client.ts lines
150-163): spread the review, replacing the author's display fields from the
matching profile, or with the placeholders `"Unknown"`, `"#"`, `""`. -/
def enrichReview (playerMap : List (String × PlayerSummary))
    (review : SteamReview) : SteamReview :=
  match jsGet playerMap review.author.steamid with
  | some playerData =>
      { review with author :=
          { review.author with
              personaname := some playerData.personaname
              profileurl := some playerData.profileurl
              avatar := some playerData.avatar
              avatarmedium := some playerData.avatarmedium
              avatarfull := some playerData.avatarfull } }
  | none =>
      { review with author :=
          { review.author with
              personaname := some "Unknown"
              profileurl := some "#"
              avatar := some ""
              avatarmedium := some ""
              avatarfull := some "" } }

/-- `getReviewsWithPlayerData(appId, options)` (client.ts lines 132-169):
fetch the review page, dedupe the author ids, batch-fetch the player
summaries, and enrich every review through the lookup map. -/
def getReviewsWithPlayerData (reviewsEnv : ReviewsApiEnv)
    (playersEnv : PlayersApiEnv) : Except String SteamReviewResponse :=
  match getGameReviews reviewsEnv with
  | Except.error e => Except.error e
  | Except.ok reviewsData =>
      let steamIds :=
        dedupFirstSeen (reviewsData.reviews.map (fun r => r.author.steamid)) []
      match (getPlayerSummaries playersEnv steamIds).fst with
      | Except.error e => Except.error e
      | Except.ok playerSummaries =>
          let playerMap := buildPlayerMap playerSummaries
          Except.ok { reviewsData with
            reviews := reviewsData.reviews.map (enrichReview playerMap) }

/-! ## Proxy route (src/app/api/steam/proxy/route.ts) -/

/-- A cached response body with its store time (proxy route lines 9-12). -/
structure ProxyCacheEntry where
  content : String
  timestamp : Int
deriving Repr, DecidableEq

/-- Outcome of the outbound `fetch(targetUrl, ...)` inside the proxy:
`ok` (2xx with body), a non-2xx response, the abort raised by the timeout, or
another thrown value (`some msg` for an `Error`). -/
inductive FetchOutcome where
  | ok (body : String)
  | httpError (status : Nat) (statusText : String)
  | abortError
  | failure (thrown : Option String)
deriving Repr, DecidableEq

/-- The response produced by the proxy handler: a JSON error body with a
status, or an HTML body with its `X-Cache` header value. -/
inductive ProxyResponse where
  | json (status : Nat) (error : String)
  | html (content : String) (xcache : String)
deriving Repr, DecidableEq

/-- `CACHE_TTL_MS` of the proxy route (line 5). -/
def proxyCacheTtlMs : Int := 60 * 1000

/-- The proxy `GET` handler (proxy route lines 20-120).  Inputs: the current
cache, `Date.now()`, the `url` query parameter (`none` when absent), and the
outbound-fetch environment.  Outputs: the response, the cache afterwards, and
the list of outbound URLs actually fetched. -/
def proxyGET (cache : List (String × ProxyCacheEntry)) (now : Int)
    (targetUrl : Option String) (fetchEnv : String → FetchOutcome) :
    ProxyResponse × List (String × ProxyCacheEntry) × List String :=
  match targetUrl with
  | none => (ProxyResponse.json 400 "URL parameter is required", cache, [])
  | some url =>
      if url = "" then
        (ProxyResponse.json 400 "URL parameter is required", cache, [])
      else if ¬ jsStartsWith url "https://steamcommunity.com/" then
        (ProxyResponse.json 403 "Only Steam Community URLs are allowed",
          cache, [])
      else
        let fresh : Option ProxyCacheEntry :=
          match jsGet cache url with
          | some entry =>
              if now - entry.timestamp < proxyCacheTtlMs then some entry
              else none
          | none => none
        match fresh with
        | some entry => (ProxyResponse.html entry.content "HIT", cache, [])
        | none =>
            let cache' :=
              match jsGet cache url with
              | some _ => cache.filter (fun kv => kv.fst ≠ url)
              | none => cache
            match fetchEnv url with
            | FetchOutcome.ok body =>
                (ProxyResponse.html body "MISS",
                  jsSet cache' url { content := body, timestamp := now },
                  [url])
            | FetchOutcome.httpError status statusText =>
                (ProxyResponse.json status
                  ("Steam page responded with " ++ toString status ++ ": " ++
                    statusText), cache', [url])
            | FetchOutcome.abortError =>
                (ProxyResponse.json 504 "Request to Steam timed out",
                  cache', [url])
            | FetchOutcome.failure thrown =>
                (ProxyResponse.json 500
                  ("Failed to fetch content: " ++
                    thrown.getD "Unknown error"), cache', [url])

/-! ## Players route (src/app/api/steam/players/route.ts) -/

/-- `steamIdRegex.test(s)` with `steamIdRegex = /^\d{17}$/` (players route
line 27). -/
def steamIdTest (s : String) : Bool :=
  s.length = 17 && s.data.all jsDigit

/-- The zod validation of the `steamids` query parameter (players route lines
29-40): non-empty string whose comma-separated components all pass
`steamIdRegex.test(id.trim())`. -/
def validSteamids (steamids : String) : Bool :=
  steamids.length ≥ 1 &&
    (jsSplit steamids ',').all (fun id => steamIdTest (jsTrim id))

/-- `MAX_STEAM_IDS` (players route line 7). -/
def MAX_STEAM_IDS : Nat := 100

/-- `CACHE_TTL_MS` of the players route (line 24): 10 minutes. -/
def playersCacheTtlMs : Int := 10 * 60 * 1000

/-- The parsed upstream body `GetPlayerSummariesResponse` cached and returned
by the players route; the route never inspects it. -/
structure PlayersData where
  players : List PlayerSummary
deriving Repr, DecidableEq

/-- A players-route cache entry (route lines 20-23). -/
structure PlayersCacheEntry where
  data : PlayersData
  timestamp : Int
deriving Repr, DecidableEq

/-- Outcome of the outbound Steam Web API fetch of the players route. -/
inductive PlayersFetchOutcome where
  | ok (data : PlayersData)
  | httpError (status : Nat)
  | abortError
  | failure (thrown : Option String)
deriving Repr, DecidableEq

/-- The response of the players `GET` handler, by source branch. -/
inductive PlayersResponse where
  | badParams
  | tooManyIds
  | okJson (data : PlayersData)
  | noApiKey
  | timedOut
  | serverError
deriving Repr, DecidableEq

/-- The HTTP status each `PlayersResponse` branch is returned with. -/
def PlayersResponse.status : PlayersResponse → Nat
  | badParams => 400
  | tooManyIds => 400
  | okJson _ => 200
  | noApiKey => 500
  | timedOut => 504
  | serverError => 500

/-- The players `GET` handler (players route lines 50-144).  Inputs: the
cache, `Date.now()`, the `steamids` query parameter (`none` when absent),
`process.env.STEAM_API_KEY`, and the upstream-fetch environment keyed by the
raw `steamids` string.  Outputs: the response, the cache afterwards, and the
list of `steamids` strings sent upstream. -/
def playersGET (cache : List (String × PlayersCacheEntry)) (now : Int)
    (steamidsParam : Option String) (apiKey : Option String)
    (fetchEnv : String → PlayersFetchOutcome) :
    PlayersResponse × List (String × PlayersCacheEntry) × List String :=
  match steamidsParam with
  | none => (PlayersResponse.badParams, cache, [])
  | some steamids =>
      if ¬ validSteamids steamids then
        (PlayersResponse.badParams, cache, [])
      else if (jsSplit steamids ',').length > MAX_STEAM_IDS then
        (PlayersResponse.tooManyIds, cache, [])
      else
        let fresh : Option PlayersCacheEntry :=
          match jsGet cache steamids with
          | some entry =>
              if now - entry.timestamp < playersCacheTtlMs then some entry
              else none
          | none => none
        match fresh with
        | some entry => (PlayersResponse.okJson entry.data, cache, [])
        | none =>
            let cache' :=
              match jsGet cache steamids with
              | some _ => cache.filter (fun kv => kv.fst ≠ steamids)
              | none => cache
            match apiKey with
            | none => (PlayersResponse.noApiKey, cache', [])
            | some _ =>
                match fetchEnv steamids with
                | PlayersFetchOutcome.ok data =>
                    (PlayersResponse.okJson data,
                      jsSet cache' steamids { data := data, timestamp := now },
                      [steamids])
                | PlayersFetchOutcome.httpError _ =>
                    (PlayersResponse.serverError, cache', [steamids])
                | PlayersFetchOutcome.abortError =>
                    (PlayersResponse.timedOut, cache', [steamids])
                | PlayersFetchOutcome.failure _ =>
                    (PlayersResponse.serverError, cache', [steamids])

/-! ## Hours-phrase extraction of `parseReviewPage` (reviewParser variants)

The two observed `parseReviewPage` variants run a fixed regular expression
over the trimmed `.hours` text of each review block:

* variant at src/unnamed/part_009 lines 200-207 (Ukrainian):
  `/(\d+\.?\d*)\s+год\.\s+загалом\s+\((\d+\.?\d*)\s+год\s+на\s+момент\s+рецензування\)/`
* variant at src/unnamed/part_009 lines 381-388 (English):
  `/(\d+\.?\d*)\s+hrs\s+on\s+record\s+\((\d+\.?\d*)\s+hrs\s+at\s+review\s+time\)/`

The matcher below is a direct operational model of these patterns: the
pattern pieces `\d+\.?\d*`, `\s+` and literals are consumed greedily, which
coincides with backtracking regex semantics for these patterns because each
number/whitespace group is followed by a token that cannot extend it (a
greedy group never has to give characters back), and `exec` tries start
positions left to right. -/

/-- Greedy `(\d+\.?\d*)`: at least one digit, an optional dot, more digits;
returns the capture and the rest, or `none` if no digit starts here. -/
def matchNumber (cs : List Char) : Option (List Char × List Char) :=
  let d1 := cs.takeWhile jsDigit
  let r1 := cs.dropWhile jsDigit
  if d1.isEmpty then none
  else
    match r1 with
    | '.' :: r2 =>
        some (d1 ++ '.' :: r2.takeWhile jsDigit, r2.dropWhile jsDigit)
    | _ => some (d1, r1)

/-- Greedy `\s+`: at least one JS whitespace character. -/
def matchSpaces (cs : List Char) : Option (List Char) :=
  if (cs.takeWhile jsSpace).isEmpty then none
  else some (cs.dropWhile jsSpace)

/-- A literal character sequence of the pattern. -/
def matchLit : List Char → List Char → Option (List Char)
  | [], cs => some cs
  | _ :: _, [] => none
  | l :: ls, c :: cs => if c = l then matchLit ls cs else none

/-- One alternating literal/`\s+` tail of an hours pattern: consume each
word, with mandatory whitespace between consecutive words. -/
def matchWords : List (List Char) → List Char → Option (List Char)
  | [], cs => some cs
  | [w], cs => matchLit w cs
  | w :: w' :: ws, cs =>
      match matchLit w cs with
      | none => none
      | some r =>
          match matchSpaces r with
          | none => none
          | some r' => matchWords (w' :: ws) r'

/-- Attempt the full two-capture hours pattern at the current position:
number, `\s+`, the first word list, `(`, number, `\s+`, the second word list,
`)`. -/
def matchHoursAt (words1 words2 : List String) (cs : List Char) :
    Option (String × String) :=
  match matchNumber cs with
  | none => none
  | some (c1, r0) =>
      match matchSpaces r0 with
      | none => none
      | some r1 =>
          match matchWords (words1.map String.data) r1 with
          | none => none
          | some r2 =>
              match matchSpaces r2 with
              | none => none
              | some r3 =>
                  match matchLit ['('] r3 with
                  | none => none
                  | some r4 =>
                      match matchNumber r4 with
                      | none => none
                      | some (c2, r5) =>
                          match matchSpaces r5 with
                          | none => none
                          | some r6 =>
                              match matchWords (words2.map String.data) r6 with
                              | none => none
                              | some r7 =>
                                  match matchLit [')'] r7 with
                                  | none => none
                                  | some _ =>
                                      some (String.mk c1, String.mk c2)

/-- `exec`: try the pattern at each start position, left to right. -/
def execFirst (m : List Char → Option (String × String)) :
    List Char → Option (String × String)
  | [] => m []
  | c :: cs =>
      match m (c :: cs) with
      | some r => some r
      | none => execFirst m cs

/-- The English hours pattern of the variant at part_009 lines 381-388. -/
def hoursExecEn (s : String) : Option (String × String) :=
  execFirst (matchHoursAt ["hrs", "on", "record"]
    ["hrs", "at", "review", "time"]) s.data

/-- The Ukrainian hours pattern of the variant at part_009 lines 200-207. -/
def hoursExecUk (s : String) : Option (String × String) :=
  execFirst (matchHoursAt ["год.", "загалом"]
    ["год", "на", "момент", "рецензування"]) s.data

/-- `parseFloat` on a captured `\d+\.?\d*` string, as an exact rational. -/
def digitsToNat (cs : List Char) : Nat :=
  cs.foldl (fun acc c => 10 * acc + (c.toNat - '0'.toNat)) 0

/-- `parseFloat` restricted to the capture shape `\d+\.?\d*` (always a valid
decimal numeral there), modelled exactly as a rational. -/
def parseFloatQ (s : String) : ℚ :=
  let ip := s.data.takeWhile jsDigit
  match s.data.dropWhile jsDigit with
  | '.' :: r2 =>
      let fp := r2.takeWhile jsDigit
      (digitsToNat ip : ℚ) + (digitsToNat fp : ℚ) / ((10 : ℚ) ^ fp.length)
  | _ => (digitsToNat ip : ℚ)

/-- Lines 381-388 (and 200-207) of part_009: `hoursTotal`/`hoursAtReview`
from one review block's hours text, English variant. -/
def parseHoursEn (hoursText : String) : Option ℚ × Option ℚ :=
  match hoursExecEn hoursText with
  | some (c1, c2) => (some (parseFloatQ c1), some (parseFloatQ c2))
  | none => (none, none)

/-- Same extraction for the Ukrainian variant. -/
def parseHoursUk (hoursText : String) : Option ℚ × Option ℚ :=
  match hoursExecUk hoursText with
  | some (c1, c2) => (some (parseFloatQ c1), some (parseFloatQ c2))
  | none => (none, none)

/-! ## Concrete fixtures used by witnesses and counterexamples -/

/-- An author stub with the given steamid and profile URL. -/
def mkAuthor (id : String) (url : Option String) : SteamReviewAuthor :=
  { steamid := id
    num_games_owned := 3
    num_reviews := 2
    playtime_forever := 100
    playtime_last_two_weeks := 5
    playtime_at_review := 40
    personaname := some ("user-" ++ id)
    profileurl := url
    avatar := none
    avatarmedium := none
    avatarfull := none }

/-- A seed review with the given id, author and recommendation flag. -/
def mkSeedReview (rid : String) (author : SteamReviewAuthor) (voted : Bool) :
    SteamReview :=
  { recommendationid := rid
    author := author
    language := "english"
    review := "review text " ++ rid
    timestamp_created := 1700000000
    timestamp_updated := 1700000001
    voted_up := voted
    votes_up := 1
    votes_funny := 0
    weighted_vote_score := (1 : ℚ) / 2
    comment_count := 0
    steam_purchase := true
    received_for_free := false
    written_during_early_access := false }

/-- A parsed feed entry for the given game id and polarity. -/
def mkParsed (gid : String) (rt : RecType) : ParsedUserReview :=
  { gameId := gid
    gameTitle := some ("game-" ++ gid)
    gameCapsuleImage := "img-" ++ gid
    recommendationType := rt
    hoursTotal := some 10
    hoursAtReview := some 4
    reviewText := "feed text " ++ gid
    reviewDate := "2 May"
    reviewUrl := "https://steamcommunity.com/id/u/recommended/" ++ gid
    }

/-- A date environment that parses nothing. -/
def dateEnv0 : DateEnv := fun _ => none

def authorA : SteamReviewAuthor :=
  mkAuthor "A" (some "https://steamcommunity.com/id/a")

def authorB : SteamReviewAuthor :=
  mkAuthor "B" (some "https://steamcommunity.com/id/b")

def authorC : SteamReviewAuthor :=
  mkAuthor "C" (some "https://steamcommunity.com/id/c")

/-- An author whose stub carries the placeholder profile URL `"#"`. -/
def authorH : SteamReviewAuthor := mkAuthor "H" (some "#")

def seedA : SteamReview := mkSeedReview "r1" authorA true

def seedB : SteamReview := mkSeedReview "r2" authorB true

def seedC : SteamReview := mkSeedReview "r3" authorC true

def seedH : SteamReview := mkSeedReview "r4" authorH true

/-- A negative seed review (must not contribute a reviewer). -/
def seedNegD : SteamReview :=
  mkSeedReview "r5" (mkAuthor "D" (some "https://steamcommunity.com/id/d"))
    false

/-- Feed environment where reviewer B's feed fetch throws and every other
feed yields one positive entry. -/
def envC1 : FeedEnv := fun url _ =>
  if url = "https://steamcommunity.com/id/b" then
    Except.error (some "Failed to fetch reviews: 500")
  else Except.ok ([mkParsed "10" RecType.positive], 1)

/-- Feed environment where every feed fetch throws a non-`Error` value. -/
def envAllFail : FeedEnv := fun _ _ => Except.error none

def authorX : SteamReviewAuthor :=
  mkAuthor "X" (some "https://steamcommunity.com/id/x")

def seedX : SteamReview := mkSeedReview "rx" authorX true

/-- Feed environment whose single feed contains a positive entry for the
analysed game "42" and one for another game "77". -/
def envC3 : FeedEnv := fun _ _ =>
  Except.ok ([mkParsed "42" RecType.positive, mkParsed "77" RecType.positive],
    1)

/-- A players-API environment answering every chunk with an empty player
list present. -/
def envPlayersOk : PlayersApiEnv := fun _ => Except.ok (some [])

/-- A players-API environment whose response lacks the player-list field. -/
def envPlayersMissing : PlayersApiEnv := fun _ => Except.ok none

/-- A concrete player profile for steamid "A". -/
def summaryA : PlayerSummary :=
  { steamid := "A"
    communityvisibilitystate := 3
    profilestate := 1
    personaname := "Alice"
    profileurl := "https://steamcommunity.com/id/alice/"
    avatar := "a.jpg"
    avatarmedium := "am.jpg"
    avatarfull := "af.jpg"
    avatarhash := "hash"
    personastate := 1
    realname := none }

/-- A review page with success flag 1 and reviews by "A" and "B". -/
def reviewPageAB : SteamReviewResponse :=
  { success := 1
    query_summary :=
      { num_reviews := 2
        review_score := 8
        review_score_desc := "Very Positive"
        total_positive := 2
        total_negative := 0
        total_reviews := 2 }
    reviews := [seedA, seedB]
    cursor := "AoIIP..." }

/-- Players environment returning exactly Alice's profile. -/
def envPlayersA : PlayersApiEnv := fun _ => Except.ok (some [summaryA])

def enHoursPhrase : String := "123.4 hrs on record (55 hrs at review time)"

def ukHoursPhrase : String :=
  "123.4 год. загалом (55 год на момент рецензування)"

def evilUrl : String := "https://evil.example/x"

def trustedUrl : String :=
  "https://steamcommunity.com/profiles/1/recommended/"

/-- Proxy fetch environment always answering a 2xx page. -/
def envFetchOk : String → FetchOutcome := fun _ => FetchOutcome.ok "<html/>"

/-- A `steamids` parameter whose second id has a leading space: it is not a
17-digit decimal string, yet trims to one. -/
def trimBypassIds : String := "76561198000000001, 76561198000000002"

/-- 101 well-formed comma-separated steam ids. -/
def manyIds : String :=
  String.intercalate "," (List.replicate 101 "76561198000000001")

/-- Players-route upstream environment always answering an empty parsed
body. -/
def envUpstreamOk : String → PlayersFetchOutcome :=
  fun _ => PlayersFetchOutcome.ok { players := [] }

/-! ## Helper lemmas: JS objects -/

theorem jsGet_jsSet_self {α : Type} (m : List (String × α)) (k : String)
    (v : α) : jsGet (jsSet m k v) k = some v := by
  induction m with
  | nil => simp [jsSet, jsGet]
  | cons kv rest ih =>
      obtain ⟨k', v'⟩ := kv
      by_cases h : k' = k
      · simp [jsSet, jsGet, h]
      · simp [jsSet, jsGet, h, ih]

theorem jsSet_of_not_mem {α : Type} (m : List (String × α)) (k : String)
    (v : α) (h : k ∉ m.map Prod.fst) : jsSet m k v = m ++ [(k, v)] := by
  induction m with
  | nil => simp [jsSet]
  | cons kv rest ih =>
      obtain ⟨k', v'⟩ := kv
      simp only [List.map_cons, List.mem_cons] at h
      push_neg at h
      simp [jsSet, Ne.symm h.1, ih h.2]

theorem jsGet_map_authors {β : Type} (f : SteamReviewAuthor → β)
    (as : List SteamReviewAuthor) (id : String) :
    jsGet (as.map fun a => (a.steamid, f a)) id
      = (as.find? (fun a => a.steamid = id)).map f := by
  induction as with
  | nil => simp [jsGet]
  | cons a rest ih =>
      by_cases h : a.steamid = id
      · simp [jsGet, List.find?, h]
      · simp [jsGet, List.find?, h, ih]

theorem find?_self_of_nodup (as : List SteamReviewAuthor)
    (a : SteamReviewAuthor) (hnd : (as.map (fun x => x.steamid)).Nodup)
    (ha : a ∈ as) : as.find? (fun x => x.steamid = a.steamid) = some a := by
  induction as with
  | nil => simp at ha
  | cons b rest ih =>
      simp only [List.map_cons, List.nodup_cons] at hnd
      rcases List.mem_cons.mp ha with h | h
      · subst h
        simp [List.find?]
      · have hb : b.steamid ≠ a.steamid := by
          intro he
          exact hnd.1 (he ▸ List.mem_map_of_mem (fun x => x.steamid) h)
        simp [List.find?, hb, ih hnd.2 h]

/-! ## Helper lemmas: first-seen author deduplication -/

theorem firstSeenAuthors_not_seen :
    ∀ (l : List SteamReview) (seen : List String) (a : SteamReviewAuthor),
      a ∈ firstSeenAuthors l seen → a.steamid ∉ seen := by
  intro l
  induction l with
  | nil => intro seen a ha; simp [firstSeenAuthors] at ha
  | cons r rest ih =>
      intro seen a ha
      by_cases h : r.author.steamid ∈ seen
      · exact ih seen a (by simpa [firstSeenAuthors, h] using ha)
      · simp only [firstSeenAuthors, if_neg h] at ha
        rcases List.mem_cons.mp ha with he | he
        · subst he; exact h
        · intro hmem
          exact ih _ a he (List.mem_cons_of_mem _ hmem)

theorem firstSeenAuthors_nodup :
    ∀ (l : List SteamReview) (seen : List String),
      ((firstSeenAuthors l seen).map (fun a => a.steamid)).Nodup := by
  intro l
  induction l with
  | nil => intro seen; simp [firstSeenAuthors]
  | cons r rest ih =>
      intro seen
      by_cases h : r.author.steamid ∈ seen
      · simpa [firstSeenAuthors, h] using ih seen
      · simp only [firstSeenAuthors, if_neg h, List.map_cons, List.nodup_cons]
        refine ⟨?_, ih _⟩
        intro hmem
        rcases List.mem_map.mp hmem with ⟨a, ha, he⟩
        exact firstSeenAuthors_not_seen rest _ a ha
          (he ▸ List.mem_cons_self _ _)

theorem firstSeenAuthors_find :
    ∀ (l : List SteamReview) (seen : List String) (a : SteamReviewAuthor),
      a ∈ firstSeenAuthors l seen →
      ∃ r, l.find? (fun r => r.author.steamid = a.steamid) = some r ∧
        r.author = a := by
  intro l
  induction l with
  | nil => intro seen a ha; simp [firstSeenAuthors] at ha
  | cons r rest ih =>
      intro seen a ha
      by_cases h : r.author.steamid ∈ seen
      · have ha' : a ∈ firstSeenAuthors rest seen := by
          simpa [firstSeenAuthors, h] using ha
        have hne : r.author.steamid ≠ a.steamid := by
          intro he
          exact firstSeenAuthors_not_seen rest seen a ha' (he ▸ h)
        obtain ⟨r', hr', he'⟩ := ih seen a ha'
        exact ⟨r', by simp [List.find?, hne, hr'], he'⟩
      · simp only [firstSeenAuthors, if_neg h] at ha
        rcases List.mem_cons.mp ha with he | he
        · subst he
          exact ⟨r, by simp [List.find?], rfl⟩
        · have hne : r.author.steamid ≠ a.steamid := by
            intro hee
            exact firstSeenAuthors_not_seen rest _ a he
              (hee ▸ List.mem_cons_self _ _)
          obtain ⟨r', hr', he'⟩ := ih _ a he
          exact ⟨r', by simp [List.find?, hne, hr'], he'⟩

theorem firstSeenAuthors_ids_sub :
    ∀ (l : List SteamReview) (seen : List String) (a : SteamReviewAuthor),
      a ∈ firstSeenAuthors l seen →
      a.steamid ∈ l.map (fun r => r.author.steamid) := by
  intro l
  induction l with
  | nil => intro seen a ha; simp [firstSeenAuthors] at ha
  | cons r rest ih =>
      intro seen a ha
      by_cases h : r.author.steamid ∈ seen
      · have := ih seen a (by simpa [firstSeenAuthors, h] using ha)
        simpa using Or.inr this
      · simp only [firstSeenAuthors, if_neg h] at ha
        rcases List.mem_cons.mp ha with he | he
        · subst he; simp
        · simpa using Or.inr (ih _ a he)

theorem firstSeenAuthors_mem_ids :
    ∀ (l : List SteamReview) (seen : List String) (id : String),
      id ∈ l.map (fun r => r.author.steamid) → id ∉ seen →
      id ∈ (firstSeenAuthors l seen).map (fun a => a.steamid) := by
  intro l
  induction l with
  | nil => intro seen id h; simp at h
  | cons r rest ih =>
      intro seen id hmem hns
      simp only [List.map_cons, List.mem_cons] at hmem
      rcases hmem with he | he
      · subst he
        by_cases h : r.author.steamid ∈ seen
        · exact absurd h hns
        · simp [firstSeenAuthors, h]
      · by_cases h : r.author.steamid ∈ seen
        · simpa [firstSeenAuthors, h] using ih seen id (by simpa using he) hns
        · by_cases hid : id = r.author.steamid
          · subst hid; simp [firstSeenAuthors, h]
          · have := ih (r.author.steamid :: seen) id (by simpa using he)
              (by simp [hns, hid])
            simpa [firstSeenAuthors, h] using Or.inr this

/-! ## Helper lemmas: the aggregation loop -/

theorem aggregateLoop_progress (env : FeedEnv) (dateEnv : DateEnv)
    (mx : Nat) (tgt : Option String) (total : Nat) :
    ∀ (as : List SteamReviewAuthor) (k : Nat)
      (m : List (String × ReviewerAggregate)) (p : List (Nat × Nat)),
      (aggregateLoop env dateEnv mx tgt total as k m p).progress
        = p ++ (List.range as.length).map (fun i => (k + i + 1, total)) := by
  intro as
  induction as with
  | nil => intro k m p; simp [aggregateLoop]
  | cons a rest ih =>
      intro k m p
      rw [aggregateLoop, ih]
      simp [List.range_succ_eq_map, List.map_map, Function.comp]
      intro i _
      omega

theorem aggregateLoop_reviewers (env : FeedEnv) (dateEnv : DateEnv)
    (mx : Nat) (tgt : Option String) (total : Nat) :
    ∀ (as : List SteamReviewAuthor) (k : Nat)
      (m : List (String × ReviewerAggregate)) (p : List (Nat × Nat)),
      (∀ a ∈ as, a.steamid ∉ m.map Prod.fst) →
      (as.map (fun a => a.steamid)).Nodup →
      (aggregateLoop env dateEnv mx tgt total as k m p).reviewers
        = m ++ as.map (fun a =>
            (a.steamid, processAuthor env dateEnv mx tgt a)) := by
  intro as
  induction as with
  | nil => intro k m p _ _; simp [aggregateLoop]
  | cons a rest ih =>
      intro k m p hfresh hnd
      simp only [List.map_cons, List.nodup_cons] at hnd
      rw [aggregateLoop,
        jsSet_of_not_mem m a.steamid _ (hfresh a (List.mem_cons_self _ _)),
        ih _ _ _ ?_ hnd.2]
      · simp
      · intro b hb
        simp only [List.map_append, List.map_cons]
        intro hmem
        rcases List.mem_append.mp hmem with h | h
        · exact hfresh b (List.mem_cons_of_mem _ hb) h
        · simp only [List.map_nil, List.mem_cons, List.not_mem_nil] at h
          rcases h with h | h
          · exact hnd.1 (h ▸ List.mem_map_of_mem (fun x => x.steamid) hb)
          · exact h

theorem aggregateReviewerData_reviewers_eq (env : FeedEnv)
    (dateEnv : DateEnv) (initialReviews : List SteamReview) (mx : Nat)
    (tgt : Option String) :
    (aggregateReviewerData env dateEnv initialReviews mx tgt).reviewers
      = (uniqueAuthorsList initialReviews).map (fun a =>
          (a.steamid, processAuthor env dateEnv mx tgt a)) := by
  rw [aggregateReviewerData, aggregateLoop_reviewers]
  · simp
  · simp
  · exact firstSeenAuthors_nodup _ _

theorem aggregateReviewerData_progress_eq (env : FeedEnv)
    (dateEnv : DateEnv) (initialReviews : List SteamReview) (mx : Nat)
    (tgt : Option String) :
    (aggregateReviewerData env dateEnv initialReviews mx tgt).progress
      = (List.range (uniqueAuthorsList initialReviews).length).map
          (fun i => (i + 1, (uniqueAuthorsList initialReviews).length)) := by
  rw [aggregateReviewerData, aggregateLoop_progress]
  simp

theorem processAuthor_profile (env : FeedEnv) (dateEnv : DateEnv) (mx : Nat)
    (tgt : Option String) (a : SteamReviewAuthor) :
    (processAuthor env dateEnv mx tgt a).profile = profileSnapshot a := by
  rw [processAuthor]
  by_cases h : unusableProfileUrl a.profileurl
  · simp [h, initAggregate]
  · simp only [h]
    cases env (a.profileurl.getD "") mx with
    | error t => simp [initAggregate]
    | ok pr => cases pr with
      | mk reviews pages => simp [initAggregate]

theorem processAuthor_env_local (env env' : FeedEnv) (dateEnv : DateEnv)
    (mx : Nat) (tgt : Option String) (a : SteamReviewAuthor)
    (h : env (a.profileurl.getD "") mx = env' (a.profileurl.getD "") mx) :
    processAuthor env dateEnv mx tgt a
      = processAuthor env' dateEnv mx tgt a := by
  rw [processAuthor, processAuthor, h]

theorem uniqueAuthorsList_nodup (l : List SteamReview) :
    ((uniqueAuthorsList l).map (fun a => a.steamid)).Nodup := by
  simp only [uniqueAuthorsList]
  exact firstSeenAuthors_nodup _ _

/-! ## Claim theorems: reviewer aggregation -/

/-- C1: for every input review list, `aggregateReviewerData` (a total
function here, so it always resolves) reports progress exactly once per
unique positive reviewer with the k-th invocation `(k, total)` and the final
one `(total, total)`; each reviewer's aggregate is exactly the result of its
own task (so one reviewer's failure leaves the others untouched, as the
env-locality conjunct states), and a reviewer whose feed fetch throws gets
that error's message recorded, non-empty whenever the thrown `Error`'s
message is. -/
theorem aggregate_progress_and_isolation (env : FeedEnv) (dateEnv : DateEnv)
    (mx : Nat) (tgt : Option String) (initialReviews : List SteamReview) :
    (aggregateReviewerData env dateEnv initialReviews mx tgt).progress.length
      = (uniqueAuthorsList initialReviews).length
  ∧ (∀ i : Nat, i < (uniqueAuthorsList initialReviews).length →
      (aggregateReviewerData env dateEnv initialReviews mx
          tgt).progress[i]?
        = some (i + 1, (uniqueAuthorsList initialReviews).length))
  ∧ ((uniqueAuthorsList initialReviews).length ≠ 0 →
      (aggregateReviewerData env dateEnv initialReviews mx
          tgt).progress.getLast?
        = some ((uniqueAuthorsList initialReviews).length,
            (uniqueAuthorsList initialReviews).length))
  ∧ (∀ a ∈ uniqueAuthorsList initialReviews,
      jsGet (aggregateReviewerData env dateEnv initialReviews mx
          tgt).reviewers a.steamid
        = some (processAuthor env dateEnv mx tgt a))
  ∧ (∀ a ∈ uniqueAuthorsList initialReviews, ∀ env' : FeedEnv,
      env (a.profileurl.getD "") mx = env' (a.profileurl.getD "") mx →
      jsGet (aggregateReviewerData env dateEnv initialReviews mx
          tgt).reviewers a.steamid
        = jsGet (aggregateReviewerData env' dateEnv initialReviews mx
            tgt).reviewers a.steamid)
  ∧ (∀ a ∈ uniqueAuthorsList initialReviews,
      unusableProfileUrl a.profileurl = false →
      ∀ thrown, env (a.profileurl.getD "") mx = Except.error thrown →
      jsGet (aggregateReviewerData env dateEnv initialReviews mx
          tgt).reviewers a.steamid
        = some { initAggregate a with error := some (thrownMessage thrown) }
      ∧ (thrown ≠ some "" → thrownMessage thrown ≠ "")) := by
  have hlook : ∀ a ∈ uniqueAuthorsList initialReviews,
      jsGet (aggregateReviewerData env dateEnv initialReviews mx
        tgt).reviewers a.steamid
        = some (processAuthor env dateEnv mx tgt a) := by
    intro a ha
    rw [aggregateReviewerData_reviewers_eq, jsGet_map_authors,
      find?_self_of_nodup _ a (uniqueAuthorsList_nodup _) ha]
    rfl
  have hlook' : ∀ (e : FeedEnv), ∀ a ∈ uniqueAuthorsList initialReviews,
      ∀ de : DateEnv,
      jsGet (aggregateReviewerData e de initialReviews mx
        tgt).reviewers a.steamid
        = some (processAuthor e de mx tgt a) := by
    intro e a ha de
    rw [aggregateReviewerData_reviewers_eq, jsGet_map_authors,
      find?_self_of_nodup _ a (uniqueAuthorsList_nodup _) ha]
    rfl
  refine ⟨?_, ?_, ?_, hlook, ?_, ?_⟩
  · rw [aggregateReviewerData_progress_eq]; simp
  · intro i h
    rw [aggregateReviewerData_progress_eq]
    simp [List.getElem?_range, h]
  · intro h
    have hpos : 0 < (uniqueAuthorsList initialReviews).length :=
      Nat.pos_of_ne_zero h
    rw [aggregateReviewerData_progress_eq, List.getLast?_eq_getElem?]
    simp [List.getElem?_range, Nat.sub_lt hpos, Nat.sub_add_cancel hpos]
  · intro a ha env' henv
    rw [hlook' env a ha, hlook' env' a ha,
      processAuthor_env_local env env' dateEnv mx tgt a henv]
  · intro a ha hun thrown herr
    refine ⟨?_, ?_⟩
    · rw [hlook a ha, processAuthor, hun, herr]
      simp
    · intro hne
      cases thrown with
      | none => simp [thrownMessage]
      | some m =>
          simp only [thrownMessage, Option.getD_some]
          intro he
          exact hne (by rw [he])

/-- C1 witness: three seed reviewers where reviewer B's feed fetch throws;
reviewer B's aggregate records the thrown message, reviewers A and C still
hold populated review maps, the progress trace is `(1,3) (2,3) (3,3)` and
its final invocation is `(3, 3)`. -/
theorem aggregate_progress_and_isolation_witness :
    jsGet (aggregateReviewerData envC1 dateEnv0 [seedA, seedB, seedC] 20
        none).reviewers "B"
      = some { initAggregate authorB with
          error := some "Failed to fetch reviews: 500" }
  ∧ thrownMessage (some "Failed to fetch reviews: 500") ≠ ""
  ∧ ((jsGet (aggregateReviewerData envC1 dateEnv0 [seedA, seedB, seedC] 20
        none).reviewers "A").map
          (fun agg => ((jsGet agg.reviews "10").isSome, agg.error)))
      = some (true, none)
  ∧ ((jsGet (aggregateReviewerData envC1 dateEnv0 [seedA, seedB, seedC] 20
        none).reviewers "C").map
          (fun agg => ((jsGet agg.reviews "10").isSome, agg.error)))
      = some (true, none)
  ∧ (aggregateReviewerData envC1 dateEnv0 [seedA, seedB, seedC] 20
        none).progress = [(1, 3), (2, 3), (3, 3)]
  ∧ (aggregateReviewerData envC1 dateEnv0 [seedA, seedB, seedC] 20
        none).progress.getLast? = some (3, 3) := by
  obtain ⟨h1, h2, h3, h4, h5, h6⟩ :=
    aggregate_progress_and_isolation envC1 dateEnv0 20 none
      [seedA, seedB, seedC]
  have hB := h6 authorB (by decide) (by decide)
    (some "Failed to fetch reviews: 500") rfl
  exact ⟨hB.1, hB.2 (by decide), by decide, by decide, by decide,
    h3 (by decide)⟩

/-- C2: the reviewer mapping has pairwise-distinct keys, a key is present
exactly when it is the author id of some positively-recommended seed review,
and each key's stored profile snapshot comes from the first
positively-recommended seed review bearing that id (later duplicates are
discarded). -/
theorem aggregate_dedup_first_seen (env : FeedEnv) (dateEnv : DateEnv)
    (mx : Nat) (tgt : Option String) (initialReviews : List SteamReview) :
    ((aggregateReviewerData env dateEnv initialReviews mx
        tgt).reviewers.map Prod.fst).Nodup
  ∧ (∀ id : String,
      id ∈ (aggregateReviewerData env dateEnv initialReviews mx
          tgt).reviewers.map Prod.fst
        ↔ id ∈ (initialReviews.filter (fun r => r.voted_up)).map
            (fun r => r.author.steamid))
  ∧ (∀ id agg,
      jsGet (aggregateReviewerData env dateEnv initialReviews mx
          tgt).reviewers id = some agg →
      ∃ r, (initialReviews.filter (fun r => r.voted_up)).find?
            (fun r => r.author.steamid = id) = some r
        ∧ agg.profile = profileSnapshot r.author) := by
  have hkeys : (aggregateReviewerData env dateEnv initialReviews mx
      tgt).reviewers.map Prod.fst
      = (uniqueAuthorsList initialReviews).map (fun a => a.steamid) := by
    rw [aggregateReviewerData_reviewers_eq, List.map_map]
    rfl
  refine ⟨?_, ?_, ?_⟩
  · rw [hkeys]; exact uniqueAuthorsList_nodup _
  · intro id
    rw [hkeys]
    constructor
    · intro h
      rcases List.mem_map.mp h with ⟨a, ha, he⟩
      exact he ▸ firstSeenAuthors_ids_sub _ _ a ha
    · intro h
      exact firstSeenAuthors_mem_ids _ [] id h (List.not_mem_nil id)
  · intro id agg hget
    rw [aggregateReviewerData_reviewers_eq, jsGet_map_authors] at hget
    rcases Option.map_eq_some'.mp hget with ⟨a, hfind, hagg⟩
    have hpred : a.steamid = id := by
      have := List.find?_some hfind
      simpa using this
    obtain ⟨r, hr, hauth⟩ :=
      firstSeenAuthors_find _ [] a (List.mem_of_find?_eq_some hfind)
    refine ⟨r, ?_, ?_⟩
    · rw [← hpred]; exact hr
    · rw [← hagg, processAuthor_profile, hauth]

/-- C2 witness: five positive seed reviews from only two distinct author
ids produce exactly the two keys "A" and "B", and "A" is present. -/
theorem aggregate_dedup_first_seen_witness :
    (("A" : String) ∈ (aggregateReviewerData envC1 dateEnv0
        [seedA, seedB, seedA, seedB, seedA] 20 none).reviewers.map Prod.fst)
  ∧ ((aggregateReviewerData envC1 dateEnv0
        [seedA, seedB, seedA, seedB, seedA] 20
        none).reviewers.map Prod.fst).Nodup
  ∧ (aggregateReviewerData envC1 dateEnv0
        [seedA, seedB, seedA, seedB, seedA] 20 none).reviewers.map Prod.fst
      = ["A", "B"] := by
  have h := aggregate_dedup_first_seen envC1 dateEnv0 20 none
    [seedA, seedB, seedA, seedB, seedA]
  exact ⟨(h.2.1 "A").mpr (by decide), h.1, by decide⟩

/-- C4: an input with no positively-recommended review yields the empty
reviewer mapping with no progress invocation, and every reviewer key of any
run comes from a positively-recommended seed review. -/
theorem aggregate_empty_and_negative_seeds (env : FeedEnv)
    (dateEnv : DateEnv) (mx : Nat) (tgt : Option String)
    (initialReviews : List SteamReview) :
    (initialReviews.filter (fun r => r.voted_up) = [] →
      aggregateReviewerData env dateEnv initialReviews mx tgt
        = { reviewers := [], progress := [] })
  ∧ (∀ id : String,
      id ∈ (aggregateReviewerData env dateEnv initialReviews mx
          tgt).reviewers.map Prod.fst →
      ∃ r ∈ initialReviews, r.voted_up = true ∧ r.author.steamid = id) := by
  constructor
  · intro h
    rw [aggregateReviewerData]
    simp [uniqueAuthorsList, h, firstSeenAuthors, aggregateLoop]
  · intro id hid
    have h := (aggregate_dedup_first_seen env dateEnv mx tgt
      initialReviews).2.1 id
    rcases List.mem_map.mp (h.mp hid) with ⟨r, hr, he⟩
    rcases List.mem_filter.mp hr with ⟨hrm, hv⟩
    exact ⟨r, hrm, by simpa using hv, he⟩

/-- C4 witness: a single negative seed review produces the empty run; a
positive seed review's id traces back to a positive review. -/
theorem aggregate_empty_and_negative_seeds_witness :
    aggregateReviewerData envC1 dateEnv0 [seedNegD] 20 none
      = { reviewers := [], progress := [] }
  ∧ ∃ r ∈ [seedA, seedNegD], r.voted_up = true ∧ r.author.steamid = "A" := by
  refine ⟨(aggregate_empty_and_negative_seeds envC1 dateEnv0 20 none
      [seedNegD]).1 (by decide),
    (aggregate_empty_and_negative_seeds envC1 dateEnv0 20 none
      [seedA, seedNegD]).2 "A" (by decide)⟩

/-- C5: a unique reviewer whose author stub has `profileurl` undefined,
empty, or `"#"` is finalized with error "Profile URL not available", an
empty review map and `totalPages` 0, identically under every feed
environment (no fetch is attempted), while the progress trace still counts
that reviewer. -/
theorem aggregate_no_profile_short_circuit (env env' : FeedEnv)
    (dateEnv dateEnv' : DateEnv) (mx : Nat) (tgt : Option String)
    (initialReviews : List SteamReview) :
    (∀ a ∈ uniqueAuthorsList initialReviews,
      unusableProfileUrl a.profileurl = true →
        jsGet (aggregateReviewerData env dateEnv initialReviews mx
            tgt).reviewers a.steamid
          = some { profile := profileSnapshot a, reviews := [],
                   totalPages := 0,
                   error := some "Profile URL not available" }
      ∧ jsGet (aggregateReviewerData env dateEnv initialReviews mx
            tgt).reviewers a.steamid
          = jsGet (aggregateReviewerData env' dateEnv' initialReviews mx
              tgt).reviewers a.steamid)
  ∧ (aggregateReviewerData env dateEnv initialReviews mx tgt).progress.length
      = (uniqueAuthorsList initialReviews).length := by
  have hshort : ∀ (e : FeedEnv) (de : DateEnv),
      ∀ a ∈ uniqueAuthorsList initialReviews,
      unusableProfileUrl a.profileurl = true →
      jsGet (aggregateReviewerData e de initialReviews mx
          tgt).reviewers a.steamid
        = some { profile := profileSnapshot a, reviews := [],
                 totalPages := 0,
                 error := some "Profile URL not available" } := by
    intro e de a ha hun
    rw [aggregateReviewerData_reviewers_eq, jsGet_map_authors,
      find?_self_of_nodup _ a (uniqueAuthorsList_nodup _) ha]
    simp [processAuthor, hun, initAggregate]
  refine ⟨?_, ?_⟩
  · intro a ha hun
    exact ⟨hshort env dateEnv a ha hun,
      by rw [hshort env dateEnv a ha hun, hshort env' dateEnv' a ha hun]⟩
  · rw [aggregateReviewerData_progress_eq]; simp

/-- C5 witness: the `"#"`-URL reviewer H short-circuits identically under a
succeeding environment and an always-throwing one. -/
theorem aggregate_no_profile_short_circuit_witness :
    jsGet (aggregateReviewerData envC1 dateEnv0 [seedH] 20
        none).reviewers "H"
      = some { profile := profileSnapshot authorH, reviews := [],
               totalPages := 0,
               error := some "Profile URL not available" }
  ∧ jsGet (aggregateReviewerData envC1 dateEnv0 [seedH] 20
        none).reviewers "H"
      = jsGet (aggregateReviewerData envAllFail dateEnv0 [seedH] 20
          none).reviewers "H"
  ∧ (aggregateReviewerData envAllFail dateEnv0 [seedH] 20
        none).progress.length = 1 := by
  have h := aggregate_no_profile_short_circuit envC1 envAllFail dateEnv0
    dateEnv0 20 none [seedH]
  have hH := h.1 authorH (by decide) (by decide)
  have h2 := (aggregate_no_profile_short_circuit envAllFail envC1 dateEnv0
    dateEnv0 20 none [seedH]).2
  exact ⟨hH.1, hH.2, h2⟩

/-- C3 (code bug in the second variant): with `targetAppId = "42"`, the
first variant of `aggregateReviewerData` skips the feed entry for game "42"
while keeping "77"; the second variant, which never reads `targetAppId`,
stores the "42" entry in reviewer X's review map. -/
theorem aggregateV2_ignores_targetAppId :
    ((jsGet (aggregateReviewerDataV2 envC3 dateEnv0 [seedX] 10
        (some "42")).reviewers "X").map
          (fun agg => (jsGet agg.reviews "42").isSome)) = some true
  ∧ ((jsGet (aggregateReviewerData envC3 dateEnv0 [seedX] 20
        (some "42")).reviewers "X").map
          (fun agg => ((jsGet agg.reviews "42").isSome,
            (jsGet agg.reviews "77").isSome))) = some (false, true) := by
  decide

/-! ## Helper lemmas: chunking and the players client -/

theorem chunkArrayGo_flatten {α : Type} (size : Nat) (hsize : 1 ≤ size) :
    ∀ (fuel : Nat) (l : List α), l.length ≤ fuel →
      (chunkArrayGo size fuel l).flatten = l := by
  intro fuel
  induction fuel with
  | zero =>
      intro l hl
      have : l = [] := List.eq_nil_of_length_eq_zero (Nat.le_zero.mp hl)
      subst this
      simp [chunkArrayGo]
  | succ fuel ih =>
      intro l hl
      cases l with
      | nil => simp [chunkArrayGo]
      | cons a tl =>
          have hdrop : ((a :: tl).drop size).length ≤ fuel := by
            simp only [List.length_drop, List.length_cons]
            simp only [List.length_cons] at hl
            omega
          simp only [chunkArrayGo, List.flatten_cons, ih _ hdrop,
            List.take_append_drop]

theorem chunkArrayGo_length_100 {α : Type} :
    ∀ (fuel : Nat) (l : List α), l.length ≤ fuel →
      (chunkArrayGo 100 fuel l).length = (l.length + 99) / 100 := by
  intro fuel
  induction fuel with
  | zero =>
      intro l hl
      have : l = [] := List.eq_nil_of_length_eq_zero (Nat.le_zero.mp hl)
      subst this
      simp [chunkArrayGo]
  | succ fuel ih =>
      intro l hl
      cases l with
      | nil => simp [chunkArrayGo]
      | cons a tl =>
          have hdrop : ((a :: tl).drop 100).length ≤ fuel := by
            simp only [List.length_drop, List.length_cons]
            simp only [List.length_cons] at hl
            omega
          rw [chunkArrayGo, List.length_cons, ih _ hdrop]
          simp only [List.length_drop, List.length_cons]
          omega

theorem chunkArrayGo_sizes {α : Type} (size : Nat) :
    ∀ (fuel : Nat) (l : List α), ∀ c ∈ chunkArrayGo size fuel l,
      c.length ≤ size := by
  intro fuel
  induction fuel with
  | zero =>
      intro l c hc
      cases l with
      | nil => simp [chunkArrayGo] at hc
      | cons a tl => simp [chunkArrayGo] at hc
  | succ fuel ih =>
      intro l c hc
      cases l with
      | nil => simp [chunkArrayGo] at hc
      | cons a tl =>
          simp only [chunkArrayGo, List.mem_cons] at hc
          rcases hc with h | h
          · subst h
            simpa using Nat.min_le_left size (a :: tl).length
          · exact ih _ c h

theorem getPlayerSummariesGo_ok (env : PlayersApiEnv)
    (f : List String → List PlayerSummary) :
    ∀ (chunks : List (List String)) (acc : List PlayerSummary)
      (log : List (List String)),
      (∀ c ∈ chunks, env c = Except.ok (some (f c))) →
      getPlayerSummariesGo env chunks acc log
        = (Except.ok (acc ++ (chunks.map f).flatten), log ++ chunks) := by
  intro chunks
  induction chunks with
  | nil => intro acc log _; simp [getPlayerSummariesGo]
  | cons c rest ih =>
      intro acc log h
      rw [getPlayerSummariesGo, h c (List.mem_cons_self _ _)]
      show getPlayerSummariesGo env rest (acc ++ f c) (log ++ [c]) = _
      rw [ih _ _ (fun c' hc' => h c' (List.mem_cons_of_mem _ hc'))]
      simp

theorem getPlayerSummariesGo_missing (env : PlayersApiEnv) :
    ∀ (pre : List (List String)) (c : List String)
      (post : List (List String)) (acc : List PlayerSummary)
      (log : List (List String)),
      (∀ c' ∈ pre, ∃ ps, env c' = Except.ok (some ps)) →
      env c = Except.ok none →
      (getPlayerSummariesGo env (pre ++ c :: post) acc log).fst
        = Except.error "Steam API returned incorrect player data" := by
  intro pre
  induction pre with
  | nil =>
      intro c post acc log _ hc
      simp [getPlayerSummariesGo, hc]
  | cons c' rest ih =>
      intro c post acc log hpre hc
      obtain ⟨ps, hps⟩ := hpre c' (List.mem_cons_self _ _)
      rw [List.cons_append, getPlayerSummariesGo, hps]
      show (getPlayerSummariesGo env (rest ++ c :: post) (acc ++ ps)
        (log ++ [c'])).fst = _
      exact ih c post _ _ (fun x hx => hpre x (List.mem_cons_of_mem _ hx)) hc

/-! ## Claim theorem: player-summary chunking -/

/-- C6: `getPlayerSummaries` returns immediately on an empty id list with no
request; on a non-empty list it partitions the ids in order into
`ceil(n/100)` consecutive chunks of size at most 100, issues exactly one
request per chunk, and returns the per-chunk player arrays concatenated in
chunk order; a response with a missing player-list field (after any prefix
of well-formed responses) makes the whole call throw. -/
theorem getPlayerSummaries_contract (env : PlayersApiEnv)
    (steamIds : List String) (f : List String → List PlayerSummary) :
    getPlayerSummaries env [] = (Except.ok [], [])
  ∧ (steamIds ≠ [] →
        (chunkArray steamIds 100).flatten = steamIds
      ∧ (chunkArray steamIds 100).length = (steamIds.length + 99) / 100
      ∧ (∀ c ∈ chunkArray steamIds 100, c.length ≤ 100)
      ∧ ((∀ c ∈ chunkArray steamIds 100, env c = Except.ok (some (f c))) →
          getPlayerSummaries env steamIds
            = (Except.ok ((chunkArray steamIds 100).map f).flatten,
               chunkArray steamIds 100)))
  ∧ (∀ pre c post, chunkArray steamIds 100 = pre ++ c :: post →
        (∀ c' ∈ pre, ∃ ps, env c' = Except.ok (some ps)) →
        env c = Except.ok none →
        (getPlayerSummaries env steamIds).fst
          = Except.error "Steam API returned incorrect player data") := by
  refine ⟨by simp [getPlayerSummaries], ?_, ?_⟩
  · intro hne
    refine ⟨chunkArrayGo_flatten 100 (by omega) _ _ (Nat.le_refl _),
      chunkArrayGo_length_100 _ _ (Nat.le_refl _),
      fun c hc => chunkArrayGo_sizes 100 _ _ c hc, ?_⟩
    intro hok
    rw [getPlayerSummaries, if_neg (by simpa using hne),
      getPlayerSummariesGo_ok env f _ _ _ hok]
    simp
  · intro pre c post hsplit hpre hc
    have hne : steamIds ≠ [] := by
      intro h
      subst h
      simp [chunkArray, chunkArrayGo] at hsplit
    rw [getPlayerSummaries, if_neg (by simpa using hne), hsplit]
    exact getPlayerSummariesGo_missing env pre c post [] [] hpre hc

/-- C6 witness: an empty id list issues no request; 250 ids give 3 chunks;
3 ids give one request with the concatenated (empty) result; a response
missing the player-list field throws. -/
theorem getPlayerSummaries_contract_witness :
    getPlayerSummaries envPlayersOk [] = (Except.ok [], [])
  ∧ (chunkArray ((List.range 250).map (fun i => toString i)) 100).length = 3
  ∧ getPlayerSummaries envPlayersOk ["1", "2", "3"]
      = (Except.ok [], [["1", "2", "3"]])
  ∧ (getPlayerSummaries envPlayersMissing ["1", "2", "3"]).fst
      = Except.error "Steam API returned incorrect player data" := by
  have h250 := getPlayerSummaries_contract envPlayersOk
    ((List.range 250).map (fun i => toString i)) (fun _ => [])
  have h3 := getPlayerSummaries_contract envPlayersOk ["1", "2", "3"]
    (fun _ => [])
  have hm := getPlayerSummaries_contract envPlayersMissing ["1", "2", "3"]
    (fun _ => [])
  refine ⟨h3.1, ?_, ?_, ?_⟩
  · refine ((h250.2.1 (by simp)).2.1).trans ?_
    norm_num
  · have he := (h3.2.1 (by decide)).2.2.2 (fun c _ => rfl)
    rw [he]
    rfl
  · exact hm.2.2 [] ["1", "2", "3"] [] (by decide)
      (by intro c' hc'; simp at hc') rfl

/-! ## Claim theorem: placeholder enrichment -/

/-- C7: `getReviewsWithPlayerData` does not throw once the two upstream
calls succeed; the result keeps the page's success flag, summary and cursor,
and every review is enriched in place: the author whose id is missing from
the lookup map gets `"Unknown"`, `"#"` and empty avatar fields, a matching
author gets the profile's fields, and every non-author field (and the
author's id and playtime counters) is unchanged. -/
theorem getReviewsWithPlayerData_enrichment (reviewsEnv : ReviewsApiEnv)
    (playersEnv : PlayersApiEnv) (reviewsData : SteamReviewResponse)
    (playerSummaries : List PlayerSummary)
    (hr : reviewsEnv = Except.ok reviewsData)
    (hs : reviewsData.success = 1)
    (hp : (getPlayerSummaries playersEnv
        (dedupFirstSeen (reviewsData.reviews.map
          (fun r => r.author.steamid)) [])).fst
      = Except.ok playerSummaries) :
    getReviewsWithPlayerData reviewsEnv playersEnv
      = Except.ok { reviewsData with
          reviews := reviewsData.reviews.map
            (enrichReview (buildPlayerMap playerSummaries)) }
  ∧ (∀ r : SteamReview,
      (enrichReview (buildPlayerMap playerSummaries) r).recommendationid
          = r.recommendationid
      ∧ (enrichReview (buildPlayerMap playerSummaries) r).language
          = r.language
      ∧ (enrichReview (buildPlayerMap playerSummaries) r).review = r.review
      ∧ (enrichReview (buildPlayerMap playerSummaries) r).timestamp_created
          = r.timestamp_created
      ∧ (enrichReview (buildPlayerMap playerSummaries) r).timestamp_updated
          = r.timestamp_updated
      ∧ (enrichReview (buildPlayerMap playerSummaries) r).voted_up
          = r.voted_up
      ∧ (enrichReview (buildPlayerMap playerSummaries) r).votes_up
          = r.votes_up
      ∧ (enrichReview (buildPlayerMap playerSummaries) r).votes_funny
          = r.votes_funny
      ∧ (enrichReview (buildPlayerMap playerSummaries) r).weighted_vote_score
          = r.weighted_vote_score
      ∧ (enrichReview (buildPlayerMap playerSummaries) r).comment_count
          = r.comment_count
      ∧ (enrichReview (buildPlayerMap playerSummaries) r).steam_purchase
          = r.steam_purchase
      ∧ (enrichReview (buildPlayerMap playerSummaries) r).received_for_free
          = r.received_for_free
      ∧ (enrichReview (buildPlayerMap
          playerSummaries) r).written_during_early_access
          = r.written_during_early_access
      ∧ (enrichReview (buildPlayerMap playerSummaries) r).author.steamid
          = r.author.steamid
      ∧ (enrichReview (buildPlayerMap
          playerSummaries) r).author.num_games_owned
          = r.author.num_games_owned
      ∧ (enrichReview (buildPlayerMap playerSummaries) r).author.num_reviews
          = r.author.num_reviews
      ∧ (enrichReview (buildPlayerMap
          playerSummaries) r).author.playtime_forever
          = r.author.playtime_forever
      ∧ (enrichReview (buildPlayerMap
          playerSummaries) r).author.playtime_at_review
          = r.author.playtime_at_review)
  ∧ (∀ r : SteamReview,
      jsGet (buildPlayerMap playerSummaries) r.author.steamid = none →
        (enrichReview (buildPlayerMap playerSummaries) r).author.personaname
            = some "Unknown"
      ∧ (enrichReview (buildPlayerMap playerSummaries) r).author.profileurl
            = some "#"
      ∧ (enrichReview (buildPlayerMap playerSummaries) r).author.avatar
            = some ""
      ∧ (enrichReview (buildPlayerMap playerSummaries) r).author.avatarmedium
            = some ""
      ∧ (enrichReview (buildPlayerMap playerSummaries) r).author.avatarfull
            = some "")
  ∧ (∀ r : SteamReview, ∀ p : PlayerSummary,
      jsGet (buildPlayerMap playerSummaries) r.author.steamid = some p →
        (enrichReview (buildPlayerMap playerSummaries) r).author.personaname
            = some p.personaname
      ∧ (enrichReview (buildPlayerMap playerSummaries) r).author.profileurl
            = some p.profileurl
      ∧ (enrichReview (buildPlayerMap playerSummaries) r).author.avatar
            = some p.avatar
      ∧ (enrichReview (buildPlayerMap playerSummaries) r).author.avatarmedium
            = some p.avatarmedium
      ∧ (enrichReview (buildPlayerMap playerSummaries) r).author.avatarfull
            = some p.avatarfull) := by
  subst hr
  have h1 : getGameReviews (Except.ok reviewsData) = Except.ok reviewsData :=
    by simp [getGameReviews, hs]
  refine ⟨?_, ?_, ?_, ?_⟩
  · rw [getReviewsWithPlayerData, h1]
    show (match (getPlayerSummaries playersEnv _).fst with
      | Except.error e => Except.error e
      | Except.ok playerSummaries => _) = _
    rw [hp]
  · intro r
    cases h : jsGet (buildPlayerMap playerSummaries) r.author.steamid with
    | none => simp [enrichReview, h]
    | some p => simp [enrichReview, h]
  · intro r h
    simp [enrichReview, h]
  · intro r p h
    simp [enrichReview, h]

/-- C7 witness: a page with reviews by A and B and a profile only for A:
B gets the placeholders, A gets Alice's fields, and the call succeeds. -/
theorem getReviewsWithPlayerData_enrichment_witness :
    getReviewsWithPlayerData (Except.ok reviewPageAB) envPlayersA
      = Except.ok { reviewPageAB with
          reviews := reviewPageAB.reviews.map
            (enrichReview (buildPlayerMap [summaryA])) }
  ∧ (enrichReview (buildPlayerMap [summaryA]) seedB).author.personaname
      = some "Unknown"
  ∧ (enrichReview (buildPlayerMap [summaryA]) seedB).author.profileurl
      = some "#"
  ∧ (enrichReview (buildPlayerMap [summaryA]) seedA).author.personaname
      = some "Alice"
  ∧ (enrichReview (buildPlayerMap [summaryA]) seedA).author.steamid = "A" := by
  have h := getReviewsWithPlayerData_enrichment (Except.ok reviewPageAB)
    envPlayersA reviewPageAB [summaryA] rfl rfl rfl
  obtain ⟨h1, h2, h3, h4⟩ := h
  have hB := h3 seedB rfl
  have hA := h4 seedA summaryA rfl
  exact ⟨h1, hB.1, hB.2.1, hA.1, (h2 seedA).2.2.2.2.2.2.2.2.2.2.2.2.2.1⟩

/-! ## Claim theorems: hours-phrase extraction -/

/-- C8 counterexample: the hours pattern of each `parseReviewPage` variant
is single-language, not bilingual.  A well-formed Ukrainian hours phrase with
two numeric groups is rejected by the English variant's pattern (both fields
undefined) although the Ukrainian pattern captures it, and vice versa. -/
theorem parseHours_not_bilingual :
    parseHoursEn ukHoursPhrase = (none, none)
  ∧ (parseHoursUk ukHoursPhrase).fst.isSome = true
  ∧ parseHoursUk enHoursPhrase = (none, none)
  ∧ (parseHoursEn enHoursPhrase).fst.isSome = true := by
  set_option maxRecDepth 4000 in decide

/-- C8 (amended): each variant's fixed single-language phrase pattern
(Ukrainian at part_009 lines 200-207, English at lines 381-388) captures two
numeric groups; when the phrase matches, `hoursTotal` and `hoursAtReview`
are the two captured numbers, and when it does not match both are undefined
— in either case both fields are defined or undefined together and no error
is raised (the extraction is total). -/
theorem parseHours_match_behaviour (s : String) :
    ((∃ c1 c2, hoursExecEn s = some (c1, c2)
        ∧ parseHoursEn s = (some (parseFloatQ c1), some (parseFloatQ c2)))
      ∨ (hoursExecEn s = none ∧ parseHoursEn s = (none, none)))
  ∧ ((∃ c1 c2, hoursExecUk s = some (c1, c2)
        ∧ parseHoursUk s = (some (parseFloatQ c1), some (parseFloatQ c2)))
      ∨ (hoursExecUk s = none ∧ parseHoursUk s = (none, none)))
  ∧ ((parseHoursEn s).fst.isSome ↔ (parseHoursEn s).snd.isSome)
  ∧ ((parseHoursUk s).fst.isSome ↔ (parseHoursUk s).snd.isSome) := by
  refine ⟨?_, ?_, ?_, ?_⟩
  · cases h : hoursExecEn s with
    | none => exact Or.inr ⟨rfl, by simp [parseHoursEn, h]⟩
    | some pr =>
        obtain ⟨c1, c2⟩ := pr
        exact Or.inl ⟨c1, c2, rfl, by simp [parseHoursEn, h]⟩
  · cases h : hoursExecUk s with
    | none => exact Or.inr ⟨rfl, by simp [parseHoursUk, h]⟩
    | some pr =>
        obtain ⟨c1, c2⟩ := pr
        exact Or.inl ⟨c1, c2, rfl, by simp [parseHoursUk, h]⟩
  · cases h : hoursExecEn s with
    | none => simp [parseHoursEn, h]
    | some pr => obtain ⟨c1, c2⟩ := pr; simp [parseHoursEn, h]
  · cases h : hoursExecUk s with
    | none => simp [parseHoursUk, h]
    | some pr => obtain ⟨c1, c2⟩ := pr; simp [parseHoursUk, h]

/-! ## Claim theorem: proxy allow-list -/

/-- C9: a non-empty target URL that does not begin with
`https://steamcommunity.com/` is answered with the 403 forbidden-target JSON
error, with the cache unchanged, no outbound fetch, and a response
independent of the cache contents, the clock and the fetch environment (so
neither the cache nor the network is consulted); a URL on the trusted origin
proceeds to the cache/fetch path: on a cache miss exactly one outbound fetch
of that URL is issued, and a fresh cache hit is served from the cache with
no fetch. -/
theorem proxyGET_allow_list (cache cache' : List (String × ProxyCacheEntry))
    (now now' : Int) (url : String)
    (fetchEnv fetchEnv' : String → FetchOutcome) :
    (url ≠ "" → jsStartsWith url "https://steamcommunity.com/" = false →
        proxyGET cache now (some url) fetchEnv
          = (ProxyResponse.json 403 "Only Steam Community URLs are allowed",
             cache, [])
      ∧ (proxyGET cache now (some url) fetchEnv).fst
          = (proxyGET cache' now' (some url) fetchEnv').fst)
  ∧ (jsStartsWith url "https://steamcommunity.com/" = true →
        (jsGet cache url = none →
          (proxyGET cache now (some url) fetchEnv).snd.snd = [url])
      ∧ (∀ entry, jsGet cache url = some entry →
          now - entry.timestamp < proxyCacheTtlMs →
          proxyGET cache now (some url) fetchEnv
            = (ProxyResponse.html entry.content "HIT", cache, []))) := by
  constructor
  · intro hne hsw
    constructor
    · simp [proxyGET, hne, hsw]
    · simp [proxyGET, hne, hsw]
  · intro hsw
    have hne : url ≠ "" := by
      intro he
      subst he
      exact absurd hsw (by decide)
    constructor
    · intro hmiss
      cases hf : fetchEnv url with
      | ok body => simp [proxyGET, hne, hsw, hmiss, hf]
      | httpError status statusText => simp [proxyGET, hne, hsw, hmiss, hf]
      | abortError => simp [proxyGET, hne, hsw, hmiss, hf]
      | failure thrown => simp [proxyGET, hne, hsw, hmiss, hf]
    · intro entry hhit hfresh
      simp [proxyGET, hne, hsw, hhit, hfresh]

/-- C9 witness: `https://evil.example/x` is rejected 403 with no fetch and
unchanged cache; the trusted profile URL on an empty cache issues exactly
one outbound fetch. -/
theorem proxyGET_allow_list_witness :
    proxyGET [] 0 (some evilUrl) envFetchOk
      = (ProxyResponse.json 403 "Only Steam Community URLs are allowed",
         [], [])
  ∧ (proxyGET [] 0 (some trustedUrl) envFetchOk).snd.snd = [trustedUrl] := by
  have h := proxyGET_allow_list [] [] 0 0 evilUrl envFetchOk envFetchOk
  have h2 := proxyGET_allow_list [] [] 0 0 trustedUrl envFetchOk envFetchOk
  exact ⟨(h.1 (by decide) (by decide)).1, (h2.2 (by decide)).1 rfl⟩

/-! ## Claim theorems: players-route validation -/

/-- C10 counterexample: `" 76561198000000002"` (leading space) is not a
17-digit decimal string, yet a request listing it passes validation because
the route tests `steamIdRegex.test(id.trim())`; the request is not rejected
with 400 and reaches the upstream fetch (one outbound call, result cached
and returned). -/
theorem playersGET_trim_bypass :
    ((" 76561198000000002" : String) ∈ jsSplit trimBypassIds ','
      ∧ steamIdTest " 76561198000000002" = false)
  ∧ playersGET [] 0 (some trimBypassIds) (some "key") envUpstreamOk
      = (PlayersResponse.okJson { players := [] },
         [(trimBypassIds,
           { data := { players := [] }, timestamp := 0 })],
         [trimBypassIds]) := by decide

/-- C10 (amended): the players route rejects with a 400 response — before
any cache lookup or upstream call, so with the cache unchanged, no outbound
request, and a response independent of cache, clock, API key and upstream
environment — every request whose comma-separated `steamids` list contains
an id that is not a 17-digit decimal string after trimming surrounding
whitespace, every request with the parameter absent, and every request
listing more than 100 ids. -/
theorem playersGET_validation (cache cache' : List (String × PlayersCacheEntry))
    (now now' : Int) (steamids : String) (apiKey apiKey' : Option String)
    (env env' : String → PlayersFetchOutcome) :
    playersGET cache now none apiKey env
      = (PlayersResponse.badParams, cache, [])
  ∧ ((∃ id ∈ jsSplit steamids ',', steamIdTest (jsTrim id) = false) →
        playersGET cache now (some steamids) apiKey env
          = (PlayersResponse.badParams, cache, [])
      ∧ (playersGET cache now (some steamids) apiKey env).fst
          = (playersGET cache' now' (some steamids) apiKey' env').fst)
  ∧ ((jsSplit steamids ',').length > MAX_STEAM_IDS →
        (playersGET cache now (some steamids) apiKey env).fst.status = 400
      ∧ (playersGET cache now (some steamids) apiKey env).snd = (cache, [])
      ∧ (playersGET cache now (some steamids) apiKey env).fst
          = (playersGET cache' now' (some steamids) apiKey' env').fst)
  ∧ PlayersResponse.badParams.status = 400
  ∧ PlayersResponse.tooManyIds.status = 400 := by
  have hv : (∃ id ∈ jsSplit steamids ',',
      steamIdTest (jsTrim id) = false) →
      validSteamids steamids = false := by
    rintro ⟨id, hid, hf⟩
    rw [validSteamids]
    cases hall : (jsSplit steamids ',').all
        (fun id => steamIdTest (jsTrim id)) with
    | false => simp [hall]
    | true =>
        rw [List.all_eq_true] at hall
        have := hall _ hid
        rw [hf] at this
        exact absurd this (by simp)
  refine ⟨by simp [playersGET], ?_, ?_, rfl, rfl⟩
  · intro hbad
    have hvf := hv hbad
    exact ⟨by simp [playersGET, hvf], by simp [playersGET, hvf]⟩
  · intro hlen
    cases hvv : validSteamids steamids with
    | false =>
        exact ⟨by simp [playersGET, hvv, PlayersResponse.status],
          by simp [playersGET, hvv],
          by simp [playersGET, hvv]⟩
    | true =>
        exact ⟨by simp [playersGET, hvv, hlen, PlayersResponse.status],
          by simp [playersGET, hvv, hlen],
          by simp [playersGET, hvv, hlen]⟩

/-- C10 witness: a malformed id ("abc") is rejected 400 with no upstream
call under any cache/key/environment, and 101 well-formed ids are rejected
400. -/
theorem playersGET_validation_witness :
    playersGET [] 0 (some "abc") (some "key") envUpstreamOk
      = (PlayersResponse.badParams, [], [])
  ∧ (playersGET [] 0 (some manyIds) (some "key") envUpstreamOk).fst.status
      = 400
  ∧ (playersGET [] 0 (some manyIds) (some "key") envUpstreamOk).snd
      = ([], []) := by
  have h1 := playersGET_validation [] [] 0 0 "abc" (some "key") (some "key")
    envUpstreamOk envUpstreamOk
  have h2 := playersGET_validation [] [] 0 0 manyIds (some "key") (some "key")
    envUpstreamOk envUpstreamOk
  have hb := h1.2.1 ⟨"abc", by decide, by decide⟩
  have hm := h2.2.2.1 (by set_option maxRecDepth 40000 in decide)
  exact ⟨hb.1, hm.1, hm.2.1⟩
